import Mathlib

/-!
Verification of the job-aggregation core in `job_aggregator.py` (plus the
description handling of `api_manager.py`).

Modelling conventions:
* A Python `str` is modelled as `List Char` (`Str`).  `str.lower()` is a
  per-character map (all strings involved are ASCII), `str.strip()` drops
  whitespace from both ends, `str.split()` splits on whitespace runs and
  drops empty tokens, and `needle in hay` is substring containment.
* Scores are Python floats whose values are all small multiples of 0.1;
  they are modelled by exact rationals (`ℚ`).
* The MD5 fingerprint in `_create_job_hash` is used by the code purely as a
  set-membership key; it is modelled as the (injective) key string itself.
* Thread-pool nondeterminism (`concurrent.futures.as_completed`) is made
  explicit: a task group takes the completion order of its futures as a
  parameter, a list of indices into the submitted task list.
* A raising source call is an `Except.error`; `_safe_search_with_timeout`
  catches it at the task boundary.
-/

set_option maxRecDepth 8000

abbrev Str := List Char

/-- Python `str.lower()` (per-character; ASCII inputs). -/
def lowerStr (s : Str) : Str := s.map Char.toLower

/-- Python `str.strip()`: whitespace removed from both ends. -/
def stripStr (s : Str) : Str :=
  ((s.dropWhile Char.isWhitespace).reverse.dropWhile Char.isWhitespace).reverse

/-- Python `needle in hay`: substring containment. -/
def isSubstr : Str → Str → Bool
  | needle, [] => needle.isEmpty
  | needle, c :: t => needle.isPrefixOf (c :: t) || isSubstr needle t

/-- The recursion of Python `str.split()`, structural on a fuel argument
(one unit per consumed character, so `s.length` units always suffice; the
fuel-exhausted branch is unreachable). -/
def splitWSFuel : ℕ → Str → List Str
  | 0, _ => []
  | _ + 1, [] => []
  | n + 1, c :: t =>
    if c.isWhitespace then splitWSFuel n t
    else (c :: t.takeWhile (fun d => !d.isWhitespace)) ::
      splitWSFuel n (t.dropWhile (fun d => !d.isWhitespace))

/-- Python `str.split()` with no argument: split on runs of whitespace,
empty tokens dropped. -/
def splitWS (s : Str) : List Str := splitWSFuel s.length s

/-- The recursion of Python `s.replace(pat, repl)`, structural on a fuel
argument (one unit per consumed character; the fuel-exhausted branch is
unreachable when starting with `s.length` units). -/
def replaceAllFuel (pat repl : Str) : ℕ → Str → Str
  | 0, s => s
  | _ + 1, [] => []
  | n + 1, c :: t =>
    if pat ≠ [] ∧ pat.isPrefixOf (c :: t) then
      repl ++ replaceAllFuel pat repl n (t.drop (pat.length - 1))
    else c :: replaceAllFuel pat repl n t

/-- Python `s.replace(pat, repl)`: every non-overlapping occurrence, left to
right.  (Only ever called with a non-empty `pat`; an empty `pat` is treated
as a no-op here.) -/
def replaceAll (pat repl s : Str) : Str := replaceAllFuel pat repl s.length s

/-- A job posting as the pipeline sees it: the eight dictionary fields the
orchestrator reads, every value a string (`_clean_job_data` guarantees the
keys exist; the raw-dictionary model used for that pass is `JobDict`
below). -/
structure Job where
  title : Str
  company : Str
  location : Str
  salary : Str
  link : Str
  description : Str
  job_type : Str
  source : Str
deriving DecidableEq

/-- `JobAggregator._create_job_hash`: `'|'.join` of lowercased/stripped
title, company and the first 20 characters of the lowercased/stripped
location; the MD5 of that string is modelled as the string itself. -/
def create_job_hash (job : Job) : Str :=
  stripStr (lowerStr job.title) ++ '|' :: stripStr (lowerStr job.company)
    ++ '|' :: (stripStr (lowerStr job.location)).take 20

/-- The loop of `JobAggregator._deduplicate_jobs`, with the `seen_jobs` set
modelled as the list of keys added so far. -/
def deduplicate_jobs_aux (seen : List Str) : List Job → List Job
  | [] => []
  | job :: rest =>
    if create_job_hash job ∈ seen then deduplicate_jobs_aux seen rest
    else job :: deduplicate_jobs_aux (create_job_hash job :: seen) rest

/-- `JobAggregator._deduplicate_jobs`. -/
def deduplicate_jobs (jobs : List Job) : List Job :=
  deduplicate_jobs_aux [] jobs

/-- Declarative first-occurrence deduplication: keep the head, then dedup
the tail with every posting of the head's key removed. -/
def dedup_spec : List Job → List Job
  | [] => []
  | job :: rest =>
    job :: dedup_spec (rest.filter
      (fun q => decide (create_job_hash q ≠ create_job_hash job)))
termination_by jobs => jobs.length
decreasing_by
  have := List.length_filter_le
    (fun q => decide (create_job_hash q ≠ create_job_hash job)) rest
  simp only [List.length_cons]; omega

theorem deduplicate_jobs_aux_sublist (l : List Job) :
    ∀ seen, List.Sublist (deduplicate_jobs_aux seen l) l := by
  induction l with
  | nil => intro seen; simp [deduplicate_jobs_aux]
  | cons x xs ih =>
    intro seen
    by_cases h : create_job_hash x ∈ seen
    · simp only [deduplicate_jobs_aux, if_pos h]
      exact (ih seen).trans (List.sublist_cons_self x xs)
    · simp only [deduplicate_jobs_aux, if_neg h]
      exact (ih (create_job_hash x :: seen)).cons₂ x

theorem deduplicate_jobs_aux_spec (l : List Job) :
    ∀ seen, deduplicate_jobs_aux seen l
      = dedup_spec (l.filter (fun q => decide (create_job_hash q ∉ seen))) := by
  induction l with
  | nil => intro seen; simp [deduplicate_jobs_aux, dedup_spec]
  | cons x xs ih =>
    intro seen
    by_cases h : create_job_hash x ∈ seen
    · rw [deduplicate_jobs_aux, if_pos h, ih seen, List.filter_cons]
      simp [h]
    · rw [deduplicate_jobs_aux, if_neg h, ih (create_job_hash x :: seen),
        List.filter_cons]
      have hx : decide (create_job_hash x ∉ seen) = true := by simp [h]
      rw [hx, if_pos rfl, dedup_spec, List.filter_filter]
      congr 1
      congr 1
      apply List.filter_congr
      intro q _
      rcases Decidable.em (create_job_hash q = create_job_hash x) with h1 | h1 <;>
        rcases Decidable.em (create_job_hash q ∈ seen) with h2 | h2 <;>
          simp [h1, h2]

theorem deduplicate_jobs_eq_spec (jobs : List Job) :
    deduplicate_jobs jobs = dedup_spec jobs := by
  rw [deduplicate_jobs, deduplicate_jobs_aux_spec]
  congr 1
  simpa using List.filter_eq_self.mpr (fun a _ => by simp)

theorem deduplicate_jobs_aux_key_not_seen (l : List Job) :
    ∀ seen x, x ∈ deduplicate_jobs_aux seen l → create_job_hash x ∉ seen := by
  induction l with
  | nil => intro seen x hx; simp [deduplicate_jobs_aux] at hx
  | cons j rest ih =>
    intro seen x hx
    by_cases h : create_job_hash j ∈ seen
    · rw [deduplicate_jobs_aux, if_pos h] at hx
      exact ih seen x hx
    · rw [deduplicate_jobs_aux, if_neg h] at hx
      rcases List.mem_cons.mp hx with rfl | hx'
      · exact h
      · intro hmem
        exact ih (create_job_hash j :: seen) x hx' (List.mem_cons_of_mem _ hmem)

theorem deduplicate_jobs_aux_pairwise (l : List Job) :
    ∀ seen, (deduplicate_jobs_aux seen l).Pairwise
      (fun a b => create_job_hash a ≠ create_job_hash b) := by
  induction l with
  | nil => intro seen; simp [deduplicate_jobs_aux]
  | cons j rest ih =>
    intro seen
    by_cases h : create_job_hash j ∈ seen
    · rw [deduplicate_jobs_aux, if_pos h]; exact ih seen
    · rw [deduplicate_jobs_aux, if_neg h]
      refine List.Pairwise.cons ?_ (ih (create_job_hash j :: seen))
      intro y hy hkey
      exact deduplicate_jobs_aux_key_not_seen rest (create_job_hash j :: seen) y hy
        (by rw [← hkey]; exact List.mem_cons_self _ _)

theorem deduplicate_jobs_aux_id (l : List Job) :
    ∀ seen, (∀ x ∈ l, create_job_hash x ∉ seen) →
      l.Pairwise (fun a b => create_job_hash a ≠ create_job_hash b) →
      deduplicate_jobs_aux seen l = l := by
  induction l with
  | nil => intro seen _ _; rfl
  | cons j rest ih =>
    intro seen hseen hpw
    rw [deduplicate_jobs_aux, if_neg (hseen j (List.mem_cons_self _ _))]
    congr 1
    refine ih (create_job_hash j :: seen) ?_ (List.Pairwise.of_cons hpw)
    intro x hx
    rw [List.mem_cons, not_or]
    exact ⟨fun he => (List.rel_of_pairwise_cons hpw hx) he.symm,
      hseen x (List.mem_cons_of_mem _ hx)⟩

theorem isSubstr_infix_iff (n : Str) : ∀ h : Str, isSubstr n h = true ↔ n <:+: h := by
  intro h
  induction h with
  | nil =>
    simp only [isSubstr, List.isEmpty_iff]
    constructor
    · intro he; rw [he]
    · intro hi; exact List.eq_nil_of_infix_nil hi
  | cons c t ih =>
    rw [isSubstr, Bool.or_eq_true, List.isPrefixOf_iff_prefix, ih,
      List.infix_cons_iff]

/-- `JobAggregator._is_nigerian_location`: the fixed keyword list. -/
def nigerian_keywords : List Str :=
  ["nigeria".toList, "lagos".toList, "abuja".toList, "kano".toList,
   "ibadan".toList, "calabar".toList, "port harcourt".toList,
   "benin city".toList, "jos".toList, "ilorin".toList, "owerri".toList,
   "enugu".toList, "abeokuta".toList, "onitsha".toList, "warri".toList,
   "sokoto".toList, "kaduna".toList, "maiduguri".toList, "zaria".toList,
   "katsina".toList, "bauchi".toList]

/-- `JobAggregator._is_nigerian_location`: any keyword a substring of the
lowercased location. -/
def is_nigerian_location (location : Str) : Bool :=
  nigerian_keywords.any (fun keyword => isSubstr keyword (lowerStr location))

/-- Lines 311-316 of `_calculate_relevance`: the exact/partial location
match bonus (both arguments already lowercased by the caller). -/
def location_bonus (search_location_lower job_location : Str) : ℚ :=
  if isSubstr search_location_lower job_location then 3.0
  else if (splitWS search_location_lower).any
      (fun word => decide (2 < word.length) && isSubstr word job_location) then 1.5
  else 0

/-- Lines 318-320 of `_calculate_relevance`: the Nigerian-location bonus
(the job location is passed already lowercased, as in the source). -/
def nigeria_bonus (search_location job_location : Str) : ℚ :=
  if is_nigerian_location search_location && is_nigerian_location job_location
    then 2.0 else 0

/-- Lines 322-328 of `_calculate_relevance`: salary-presence bonus plus the
seniority-keyword bonus computed over the salary text. -/
def salary_bonus (salary : Str) : ℚ :=
  if salary ≠ [] ∧ stripStr salary ≠ [] then
    1.5 + (if ["senior".toList, "lead".toList, "manager".toList,
        "director".toList].any
        (fun indicator => isSubstr indicator (lowerStr salary)) then 0.5 else 0)
  else 0

/-- Lines 330-338 of `_calculate_relevance`: description-length bonus. -/
def description_bonus (description : Str) : ℚ :=
  if description ≠ [] then
    if 150 < description.length then 1.2
    else if 75 < description.length then 0.8
    else if 25 < description.length then 0.4
    else 0
  else 0

/-- Lines 340-342 of `_calculate_relevance`: link-availability bonus. -/
def link_bonus (link : Str) : ℚ :=
  if link ≠ [] ∧ link ≠ ['#'] ∧ isSubstr "http".toList link = true then 1.0
  else 0

/-- Lines 344-346 of `_calculate_relevance`: company-name bonus. -/
def company_bonus (company : Str) : ℚ :=
  if company ≠ [] ∧ 3 < company.length then 0.5 else 0

/-- Lines 348-356 of `_calculate_relevance`: title-length bonus minus the
spam penalty, both over the lowercased title. -/
def title_bonus (title : Str) : ℚ :=
  if title ≠ [] then
    (if 10 < (lowerStr title).length ∧ (lowerStr title).length < 100
      then (0.5 : ℚ) else 0)
    - (if ["click here".toList, "apply now!".toList, "urgent!!!".toList,
        "immediate start".toList].any
        (fun spam => isSubstr spam (lowerStr title)) then (2.0 : ℚ) else 0)
  else 0

/-- `JobAggregator._calculate_relevance`: base 1.0, the sequential `score +=`
steps, floored at 0.1. -/
def calculate_relevance (job : Job) (search_location : Str) : ℚ :=
  max (1.0
    + (if search_location ≠ [] ∧ job.location ≠ [] then
        location_bonus (lowerStr search_location) (lowerStr job.location)
          + nigeria_bonus search_location (lowerStr job.location)
      else 0)
    + salary_bonus job.salary
    + description_bonus job.description
    + link_bonus job.link
    + company_bonus job.company
    + title_bonus job.title) 0.1

/-- `JobAggregator._get_source_reliability_score`: fixed per-source weights,
default 1.0. -/
def get_source_reliability_score (source : Str) : ℚ :=
  if source = "JSearch".toList then 3.0
  else if source = "Indeed".toList then 2.5
  else if source = "Jooble".toList then 2.0
  else if source = "Adzuna".toList then 2.0
  else if source = "Jobberman".toList then 1.5
  else 1.0

/-- The posting of the spec's deterministic-scoring example, abstracting
over the description text. -/
def c2_job (d : Str) : Job :=
  ⟨"Senior Backend Engineer".toList, "Acme".toList, "Remote".toList,
   "$50,000-$70,000".toList, "https://x.com/job/1".toList, d, [],
   "JSearch".toList⟩

theorem c2_relevance_value (d : Str) (h1 : 150 < d.length)
    (h2 : d.length < 200) :
    calculate_relevance (c2_job d) "Remote".toList = 8.7 := by
  have hne : d ≠ [] := by
    intro he; rw [he] at h1; simp at h1
  rw [calculate_relevance]
  simp only [c2_job]
  rw [if_pos ⟨by decide, by decide⟩]
  rw [show location_bonus (lowerStr "Remote".toList)
      (lowerStr "Remote".toList) = 3.0 from by
    rw [location_bonus, if_pos (by decide)]]
  rw [show nigeria_bonus "Remote".toList (lowerStr "Remote".toList) = 0 from by
    rw [nigeria_bonus, if_neg (by decide)]]
  rw [show salary_bonus "$50,000-$70,000".toList = 1.5 from by
    rw [salary_bonus, if_pos ⟨by decide, by decide⟩, if_neg (by decide)]
    norm_num]
  rw [show description_bonus d = 1.2 from by
    rw [description_bonus, if_pos hne, if_pos h1]]
  rw [show link_bonus "https://x.com/job/1".toList = 1.0 from by
    rw [link_bonus, if_pos ⟨by decide, by decide, by decide⟩]]
  rw [show company_bonus "Acme".toList = 0.5 from by
    rw [company_bonus, if_pos ⟨by decide, by decide⟩]]
  rw [show title_bonus "Senior Backend Engineer".toList = 0.5 from by
    rw [title_bonus, if_pos (by decide), if_pos ⟨by decide, by decide⟩,
      if_neg (by decide)]
    norm_num]
  rw [max_eq_left (by norm_num)]
  norm_num

/-- C2 (amended): for the spec's example posting (description length in
(150,200)), the code computes relevance 8.7 — the spec's 5.7 misses the
+3.0 exact-location-match bonus ("remote" is a substring of "remote") —
source score 3.0, and combined score 11.7. -/
theorem deterministic_scoring_values :
    ∀ d : Str, 150 < d.length → d.length < 200 →
      calculate_relevance (c2_job d) "Remote".toList = 8.7 ∧
      get_source_reliability_score "JSearch".toList = 3.0 ∧
      calculate_relevance (c2_job d) "Remote".toList
        + get_source_reliability_score "JSearch".toList = 11.7 := by
  intro d h1 h2
  have h := c2_relevance_value d h1 h2
  have hs : get_source_reliability_score "JSearch".toList = 3.0 := by
    rw [get_source_reliability_score, if_pos rfl]
  refine ⟨h, hs, ?_⟩
  rw [h, hs]; norm_num

/-- C2 witness: the values at a concrete 160-character description. -/
theorem deterministic_scoring_values_witness :
    calculate_relevance (c2_job (List.replicate 160 'a')) "Remote".toList = 8.7 ∧
    get_source_reliability_score "JSearch".toList = 3.0 ∧
    calculate_relevance (c2_job (List.replicate 160 'a')) "Remote".toList
      + get_source_reliability_score "JSearch".toList = 11.7 :=
  deterministic_scoring_values (List.replicate 160 'a') (by decide) (by decide)

/-- C2 counterexample: at a concrete description of length 160, the claimed
relevance 5.7 and combined 8.7 are both wrong (the code gives 8.7 and
11.7). -/
theorem deterministic_scoring_claimed_values_false :
    calculate_relevance (c2_job (List.replicate 160 'a')) "Remote".toList ≠ 5.7 ∧
    calculate_relevance (c2_job (List.replicate 160 'a')) "Remote".toList
      + get_source_reliability_score "JSearch".toList ≠ 8.7 := by
  have h := c2_relevance_value (List.replicate 160 'a') (by decide) (by decide)
  constructor
  · rw [h]; norm_num
  · rw [h, get_source_reliability_score, if_pos rfl]; norm_num

/-- C1 (amended): the exact-substring location match adds 3.0 (not 2.0) and
the token match adds 1.5 (not 1.0); when both locations are non-empty the
relevance score is the base 1.0 plus this location bonus plus the other
additive components, floored at 0.1. -/
theorem location_match_bonus_amounts :
    ∀ search_location job_location : Str,
      (lowerStr search_location <:+: lowerStr job_location →
        location_bonus (lowerStr search_location) (lowerStr job_location)
          = 3.0) ∧
      (¬ lowerStr search_location <:+: lowerStr job_location →
        ((∃ w ∈ splitWS (lowerStr search_location),
            2 < w.length ∧ w <:+: lowerStr job_location) →
          location_bonus (lowerStr search_location) (lowerStr job_location)
            = 1.5) ∧
        (¬ (∃ w ∈ splitWS (lowerStr search_location),
            2 < w.length ∧ w <:+: lowerStr job_location) →
          location_bonus (lowerStr search_location) (lowerStr job_location)
            = 0)) ∧
      (∀ job : Job, search_location ≠ [] → job.location ≠ [] →
        calculate_relevance job search_location
          = max (1.0
              + (location_bonus (lowerStr search_location)
                  (lowerStr job.location)
                + nigeria_bonus search_location (lowerStr job.location))
              + salary_bonus job.salary + description_bonus job.description
              + link_bonus job.link + company_bonus job.company
              + title_bonus job.title) 0.1) := by
  intro sl jl
  refine ⟨?_, ?_, ?_⟩
  · intro h
    rw [location_bonus, if_pos ((isSubstr_infix_iff _ _).mpr h)]
  · intro hn
    have hne : ¬ isSubstr (lowerStr sl) (lowerStr jl) = true :=
      fun hc => hn ((isSubstr_infix_iff _ _).mp hc)
    constructor
    · rintro ⟨w, hw, hlen, hinf⟩
      rw [location_bonus, if_neg hne, if_pos]
      exact List.any_eq_true.mpr ⟨w, hw, by
        rw [Bool.and_eq_true]
        exact ⟨decide_eq_true hlen, (isSubstr_infix_iff _ _).mpr hinf⟩⟩
    · intro hno
      rw [location_bonus, if_neg hne, if_neg]
      intro hc
      rcases List.any_eq_true.mp hc with ⟨w, hw, hb⟩
      rw [Bool.and_eq_true] at hb
      exact hno ⟨w, hw, of_decide_eq_true hb.1,
        (isSubstr_infix_iff _ _).mp hb.2⟩
  · intro job hsl hjl
    rw [calculate_relevance, if_pos ⟨hsl, hjl⟩]

/-- C1 witness: an exact match ("lagos" inside "lagos, nigeria") yields 3.0;
a token match ("york" inside "york city") yields 1.5. -/
theorem location_match_bonus_amounts_witness :
    location_bonus (lowerStr "Lagos".toList)
        (lowerStr "Lagos, Nigeria".toList) = 3.0 ∧
    location_bonus (lowerStr "New York".toList)
        (lowerStr "York City".toList) = 1.5 :=
  ⟨(location_match_bonus_amounts "Lagos".toList "Lagos, Nigeria".toList).1
      ((isSubstr_infix_iff _ _).mp (by decide)),
   (((location_match_bonus_amounts "New York".toList "York City".toList).2.1
      (fun h => absurd ((isSubstr_infix_iff _ _).mpr h) (by decide))).1
      ⟨"york".toList, by decide, by decide,
        (isSubstr_infix_iff _ _).mp (by decide)⟩)⟩

/-- A posting whose only non-empty field is its location. -/
def berlin_job : Job := ⟨[], [], "Berlin".toList, [], [], [], [], []⟩

/-- C1 counterexample: with request location "Berlin" and posting location
"Berlin" (all other fields empty), the claim predicts 1.0 + 2.0 = 3.0; the
code computes 1.0 + 3.0 = 4.0. -/
theorem location_match_bonus_claimed_value_false :
    calculate_relevance berlin_job "Berlin".toList ≠ 1.0 + 2.0 := by
  rw [calculate_relevance]
  simp only [berlin_job]
  rw [if_pos ⟨by decide, by decide⟩]
  rw [show location_bonus (lowerStr "Berlin".toList)
      (lowerStr "Berlin".toList) = 3.0 from by
    rw [location_bonus, if_pos (by decide)]]
  rw [show nigeria_bonus "Berlin".toList (lowerStr "Berlin".toList) = 0 from by
    rw [nigeria_bonus, if_neg (by decide)]]
  rw [show salary_bonus ([] : Str) = 0 from by
    rw [salary_bonus, if_neg (by decide)]]
  rw [show description_bonus ([] : Str) = 0 from by
    rw [description_bonus, if_neg (by decide)]]
  rw [show link_bonus ([] : Str) = 0 from by
    rw [link_bonus, if_neg (by decide)]]
  rw [show company_bonus ([] : Str) = 0 from by
    rw [company_bonus, if_neg (by decide)]]
  rw [show title_bonus ([] : Str) = 0 from by
    rw [title_bonus, if_neg (by decide)]]
  rw [max_eq_left (by norm_num)]
  norm_num

/-- A posting located in San Jose, every other field empty. -/
def san_jose_job : Job := ⟨[], [], "San Jose".toList, [], [], [], [], []⟩

/-- C10: the local-location classifier is pure substring matching over the
21 fixed keywords, so "San Jose" (containing "jos") classifies as Nigerian;
whenever both the request location and the (lowercased) posting location
classify as Nigerian the 2.0 bonus term applies, as the concrete
"Lagos"-vs-"Paris" comparison on the San Jose posting shows. -/
theorem nigerian_substring_classifier :
    (∀ s : Str, is_nigerian_location s = true ↔
      ∃ keyword ∈ nigerian_keywords, keyword <:+: lowerStr s) ∧
    nigerian_keywords.length = 21 ∧
    is_nigerian_location "San Jose".toList = true ∧
    (∀ search_location job_location : Str,
      is_nigerian_location search_location = true →
      is_nigerian_location job_location = true →
      nigeria_bonus search_location job_location = 2.0) ∧
    calculate_relevance san_jose_job "Lagos".toList
      = calculate_relevance san_jose_job "Paris".toList + 2.0 := by
  refine ⟨?_, by decide, by decide, ?_, ?_⟩
  · intro s
    unfold is_nigerian_location
    rw [List.any_eq_true]
    constructor
    · rintro ⟨kw, hm, hs⟩
      exact ⟨kw, hm, (isSubstr_infix_iff _ _).mp hs⟩
    · rintro ⟨kw, hm, hi⟩
      exact ⟨kw, hm, (isSubstr_infix_iff _ _).mpr hi⟩
  · intro sl jl h1 h2
    rw [nigeria_bonus, if_pos (by rw [h1, h2]; rfl)]
  · rw [calculate_relevance, calculate_relevance]
    simp only [san_jose_job]
    rw [if_pos ⟨by decide, by decide⟩, if_pos ⟨by decide, by decide⟩]
    rw [show location_bonus (lowerStr "Lagos".toList)
        (lowerStr "San Jose".toList) = 0 from by
      rw [location_bonus, if_neg (by decide), if_neg (by decide)]]
    rw [show location_bonus (lowerStr "Paris".toList)
        (lowerStr "San Jose".toList) = 0 from by
      rw [location_bonus, if_neg (by decide), if_neg (by decide)]]
    rw [show nigeria_bonus "Lagos".toList (lowerStr "San Jose".toList)
        = 2.0 from by
      rw [nigeria_bonus, if_pos (by decide)]]
    rw [show nigeria_bonus "Paris".toList (lowerStr "San Jose".toList)
        = 0 from by
      rw [nigeria_bonus, if_neg (by decide)]]
    rw [show salary_bonus ([] : Str) = 0 from by
      rw [salary_bonus, if_neg (by decide)]]
    rw [show description_bonus ([] : Str) = 0 from by
      rw [description_bonus, if_neg (by decide)]]
    rw [show link_bonus ([] : Str) = 0 from by
      rw [link_bonus, if_neg (by decide)]]
    rw [show company_bonus ([] : Str) = 0 from by
      rw [company_bonus, if_neg (by decide)]]
    rw [show title_bonus ([] : Str) = 0 from by
      rw [title_bonus, if_neg (by decide)]]
    rw [max_eq_left (by norm_num), max_eq_left (by norm_num)]
    norm_num

/-- C10 witness: both "Lagos" and "san jose" classify as Nigerian, so the
bonus term is 2.0 there. -/
theorem nigerian_substring_classifier_witness :
    nigeria_bonus "Lagos".toList "san jose".toList = 2.0 :=
  nigerian_substring_classifier.2.2.2.1 "Lagos".toList "san jose".toList
    (by decide) (by decide)

/-- C3: deduplication equals the declarative first-occurrence filter (a
posting is kept iff its key has not occurred earlier), the output is a
sublist of the input (original relative order), and the key depends only on
title, company and the first 20 characters of the lowercased/stripped
location — never on the source. -/
theorem dedup_first_seen_order :
    (∀ jobs : List Job, deduplicate_jobs jobs = dedup_spec jobs) ∧
    (∀ jobs : List Job, List.Sublist (deduplicate_jobs jobs) jobs) ∧
    (∀ j1 j2 : Job, j1.title = j2.title → j1.company = j2.company →
      (stripStr (lowerStr j1.location)).take 20
        = (stripStr (lowerStr j2.location)).take 20 →
      create_job_hash j1 = create_job_hash j2) := by
  refine ⟨deduplicate_jobs_eq_spec, ?_, ?_⟩
  · intro jobs
    exact deduplicate_jobs_aux_sublist jobs []
  · intro j1 j2 h1 h2 h3
    rw [create_job_hash, create_job_hash, h1, h2, h3]

/-- The spec's dedup-collision pair: identical posting from two sources. -/
def collision_job_a : Job :=
  ⟨"Backend Engineer".toList, "Acme".toList, "Lagos, Nigeria".toList,
   [], [], [], [], "Adzuna".toList⟩

/-- Same posting as `collision_job_a`, discovered second via JSearch. -/
def collision_job_b : Job :=
  ⟨"Backend Engineer".toList, "Acme".toList, "Lagos, Nigeria".toList,
   [], [], [], [], "JSearch".toList⟩

/-- C3 witness: the two equal-key postings collapse to the first one. -/
theorem dedup_first_seen_order_witness :
    create_job_hash collision_job_a = create_job_hash collision_job_b ∧
    deduplicate_jobs [collision_job_a, collision_job_b]
      = [collision_job_a] :=
  ⟨dedup_first_seen_order.2.2 collision_job_a collision_job_b rfl rfl rfl,
   by decide⟩

/-- C6: deduplication is idempotent. -/
theorem dedup_idempotent :
    ∀ jobs : List Job,
      deduplicate_jobs (deduplicate_jobs jobs) = deduplicate_jobs jobs := by
  intro jobs
  rw [deduplicate_jobs]
  exact deduplicate_jobs_aux_id (deduplicate_jobs jobs) []
    (fun x _ => List.not_mem_nil _)
    (deduplicate_jobs_aux_pairwise jobs [])

/-- `JobAggregator._clean_job_data` on the pipeline model: in this model the
eight keys always exist, so only the per-field cleanup remains (the
missing-key defaulting pass is modelled on raw dictionaries by
`clean_job_data_dict` below). -/
def clean_job_data (job : Job) : Job :=
  ⟨if job.title ≠ [] then
      stripStr (replaceAll "Position:".toList []
        (replaceAll "Job Title:".toList [] (stripStr job.title)))
    else job.title,
   if job.company ≠ [] then
      stripStr (replaceAll "Company:".toList []
        (replaceAll " - Company".toList [] (stripStr job.company)))
    else job.company,
   if job.location ≠ [] then
      List.intercalate [' '] (splitWS (stripStr job.location))
    else job.location,
   if job.salary ≠ [] then stripStr job.salary else job.salary,
   job.link, job.description, job.job_type, job.source⟩

/-- A processed posting: the cleaned job plus the two scores that
`_process_jobs` attaches. -/
structure ScoredJob where
  job : Job
  relevance_score : ℚ
  source_score : ℚ
deriving DecidableEq

/-- The sort key of `_process_jobs`: relevance plus source reliability. -/
def combined_score (p : ScoredJob) : ℚ := p.relevance_score + p.source_score

/-- The ordering `_process_jobs` sorts by (`reverse=True`, so descending
combined score). -/
def score_desc (a b : ScoredJob) : Prop := combined_score b ≤ combined_score a

instance : DecidableRel score_desc :=
  fun a b => inferInstanceAs (Decidable (combined_score b ≤ combined_score a))

instance : IsTotal ScoredJob score_desc :=
  ⟨fun a b => le_total (combined_score b) (combined_score a)⟩

instance : IsTrans ScoredJob score_desc :=
  ⟨fun _ _ _ h1 h2 => le_trans h2 h1⟩

/-- The per-posting body of the `_process_jobs` loop: clean, then attach the
relevance and source-reliability scores. -/
def process_single_job (search_location : Str) (job : Job) : ScoredJob :=
  ⟨clean_job_data job,
   calculate_relevance (clean_job_data job) search_location,
   get_source_reliability_score (clean_job_data job).source⟩

/-- `JobAggregator._process_jobs`: clean and score every posting, then a
stable sort descending by combined score (Python `list.sort` is stable;
`insertionSort` with `score_desc` is the same stable descending sort). -/
def process_jobs (jobs : List Job) (search_location : Str) : List ScoredJob :=
  List.insertionSort score_desc (jobs.map (process_single_job search_location))

theorem filter_orderedInsert_combined (v : ℚ) (a : ScoredJob)
    (l : List ScoredJob) :
    (List.orderedInsert score_desc a l).filter
        (fun p => decide (combined_score p = v))
      = if combined_score a = v then
          a :: l.filter (fun p => decide (combined_score p = v))
        else l.filter (fun p => decide (combined_score p = v)) := by
  induction l with
  | nil =>
    by_cases h : combined_score a = v <;>
      simp [List.orderedInsert, List.filter_cons, h]
  | cons b t ih =>
    rw [List.orderedInsert]
    by_cases hr : score_desc a b
    · rw [if_pos hr]
      by_cases h : combined_score a = v <;>
        by_cases hb : combined_score b = v <;>
          simp [List.filter_cons, h, hb]
    · rw [if_neg hr]
      have hr' : ¬ combined_score b ≤ combined_score a := hr
      have hlt : combined_score a < combined_score b := not_le.mp hr'
      by_cases h : combined_score a = v
      · have hb : ¬ combined_score b = v := by
          rw [← h]; exact ne_of_gt hlt
        simp [List.filter_cons, hb, ih, h]
      · by_cases hb : combined_score b = v <;>
          simp [List.filter_cons, hb, ih, h]

theorem filter_insertionSort_combined (v : ℚ) (l : List ScoredJob) :
    (List.insertionSort score_desc l).filter
        (fun p => decide (combined_score p = v))
      = l.filter (fun p => decide (combined_score p = v)) := by
  induction l with
  | nil => rfl
  | cons a t ih =>
    rw [List.insertionSort, filter_orderedInsert_combined]
    by_cases h : combined_score a = v <;> simp [List.filter_cons, h, ih]

/-- C5: `_process_jobs` returns the scored postings sorted non-increasingly
by combined score; the sort is a permutation of the pre-sort sequence, and
it is stable — postings of any given combined score appear in exactly their
pre-sort (post-dedup) relative order. -/
theorem ranking_sorted_and_stable :
    ∀ (jobs : List Job) (search_location : Str),
      (process_jobs jobs search_location).Sorted score_desc ∧
      List.Perm (process_jobs jobs search_location)
        (jobs.map (process_single_job search_location)) ∧
      (∀ v : ℚ,
        (process_jobs jobs search_location).filter
            (fun p => decide (combined_score p = v))
          = (jobs.map (process_single_job search_location)).filter
              (fun p => decide (combined_score p = v))) := by
  intro jobs search_location
  exact ⟨List.sorted_insertionSort score_desc _,
    List.perm_insertionSort score_desc _,
    fun v => filter_insertionSort_combined v _⟩

/-- The outcome of one Source call: a result list, or a raised exception
(carrying its message). -/
abbrev SourceResult := Except String (List Job)

/-- `JobAggregator._safe_search_with_timeout`: exceptions (and timeouts) are
caught at the task boundary and become `[]`; a falsy (empty) result also
becomes `[]` (`return result if result else []`). -/
def safe_search_with_timeout (r : SourceResult) : List Job :=
  match r with
  | Except.error _ => []
  | Except.ok result => if result.isEmpty then [] else result

/-- `JobAggregator._execute_task_group`: futures are drained with
`concurrent.futures.as_completed`, so the group's postings are concatenated
in completion order.  `completion_order` lists the submitted task indices in
the order their futures complete. -/
def execute_task_group (tasks : List SourceResult)
    (completion_order : List ℕ) : List Job :=
  (completion_order.map
    (fun i => safe_search_with_timeout (tasks.getD i (Except.ok [])))).flatten

/-- `JobAggregator._execute_searches_with_timeout`: the API (fast) group
runs first; the scraper (slow) group runs afterwards only when enough time
remains (`run_scrapers`). -/
def execute_searches_with_timeout (api_tasks scraper_tasks : List SourceResult)
    (api_order scraper_order : List ℕ) (run_scrapers : Bool) : List Job :=
  execute_task_group api_tasks api_order ++
    (if run_scrapers then execute_task_group scraper_tasks scraper_order
     else [])

/-- `JobAggregator.search_all_sources`: gather, deduplicate, process. -/
def search_all_sources (api_tasks scraper_tasks : List SourceResult)
    (api_order scraper_order : List ℕ) (run_scrapers : Bool)
    (location : Str) : List ScoredJob :=
  process_jobs
    (deduplicate_jobs (execute_searches_with_timeout api_tasks scraper_tasks
      api_order scraper_order run_scrapers))
    location

/-- C4: one Source's exception becomes an empty contribution at the task
boundary, an empty result stays empty, and when every Source raises or
returns an empty sequence the whole search returns the empty list — never
an exception (the embedding is total by construction). -/
theorem search_all_sources_total :
    (∀ e : String, safe_search_with_timeout (Except.error e) = []) ∧
    safe_search_with_timeout (Except.ok ([] : List Job)) = [] ∧
    (∀ (api_tasks scraper_tasks : List SourceResult)
        (api_order scraper_order : List ℕ) (run_scrapers : Bool)
        (location : Str),
      (∀ t ∈ api_tasks, (∃ e, t = Except.error e) ∨ t = Except.ok []) →
      (∀ t ∈ scraper_tasks, (∃ e, t = Except.error e) ∨ t = Except.ok []) →
      search_all_sources api_tasks scraper_tasks api_order scraper_order
        run_scrapers location = []) := by
  have hsafe : ∀ t : SourceResult,
      ((∃ e, t = Except.error e) ∨ t = Except.ok []) →
      safe_search_with_timeout t = [] := by
    rintro t (⟨e, rfl⟩ | rfl) <;> rfl
  refine ⟨fun e => rfl, rfl, ?_⟩
  intro api_tasks scraper_tasks api_order scraper_order run_scrapers
    location hapi hscr
  have hgroup : ∀ (tasks : List SourceResult) (order : List ℕ),
      (∀ t ∈ tasks, (∃ e, t = Except.error e) ∨ t = Except.ok []) →
      execute_task_group tasks order = [] := by
    intro tasks order h
    rw [execute_task_group]
    rw [List.flatten_eq_nil_iff]
    intro l hl
    rcases List.mem_map.mp hl with ⟨i, _, rfl⟩
    rcases hx : tasks[i]? with _ | t
    · rw [List.getD_eq_getElem?_getD, hx]; rfl
    · rw [List.getD_eq_getElem?_getD, hx]
      exact hsafe t (h t (List.getElem?_mem hx))
  rw [search_all_sources, execute_searches_with_timeout,
    hgroup api_tasks api_order hapi]
  have hslow : (if run_scrapers then
      execute_task_group scraper_tasks scraper_order else []) = [] := by
    cases run_scrapers
    · rfl
    · rw [if_pos rfl]; exact hgroup scraper_tasks scraper_order hscr
  rw [hslow]
  rfl

/-- C4 witness: one raising API source, one raising scraper source, nothing
else — the search returns the empty list. -/
theorem search_all_sources_total_witness :
    search_all_sources [Except.error "boom"] [Except.error "down"] [0] [0]
      true [] = [] :=
  search_all_sources_total.2.2 [Except.error "boom"] [Except.error "down"]
    [0] [0] true []
    (by rintro t ht; rw [List.mem_singleton] at ht; exact Or.inl ⟨"boom", ht⟩)
    (by rintro t ht; rw [List.mem_singleton] at ht; exact Or.inl ⟨"down", ht⟩)

/-- A minimal posting used to observe task ordering. -/
def order_job_a : Job := ⟨"A".toList, [], [], [], [], [], [], []⟩

/-- A second, distinct minimal posting. -/
def order_job_b : Job := ⟨"B".toList, [], [], [], [], [], [], []⟩

/-- C8 counterexample: with two API tasks, the sequence handed onward is not
independent of completion order — the two arrival orders [1,0] and [0,1]
produce different concatenations (`as_completed` drains futures in arrival
order, not submission order). -/
theorem collection_order_depends_on_completion :
    execute_searches_with_timeout
        [Except.ok [order_job_a], Except.ok [order_job_b]] [] [1, 0] [] false
      ≠ execute_searches_with_timeout
        [Except.ok [order_job_a], Except.ok [order_job_b]] [] [0, 1] []
        false := by
  decide

/-- C8 (amended): the slow group's postings always come after the whole fast
group's, and each task's own output order is preserved inside its
contribution; but within a group the contributions are concatenated in
completion (arrival) order, so two completion orders that are permutations
of each other yield permuted — not equal — concatenations. -/
theorem collection_order_amended :
    (∀ (api_tasks scraper_tasks : List SourceResult)
        (api_order scraper_order : List ℕ) (run_scrapers : Bool),
      execute_searches_with_timeout api_tasks scraper_tasks api_order
          scraper_order run_scrapers
        = execute_task_group api_tasks api_order ++
            (if run_scrapers then
              execute_task_group scraper_tasks scraper_order else [])) ∧
    (∀ (tasks : List SourceResult) (order : List ℕ),
      execute_task_group tasks order
        = (order.map (fun i =>
            safe_search_with_timeout (tasks.getD i (Except.ok [])))).flatten) ∧
    (∀ (tasks : List SourceResult) (order1 order2 : List ℕ),
      List.Perm order1 order2 →
      List.Perm (execute_task_group tasks order1)
        (execute_task_group tasks order2)) := by
  refine ⟨fun _ _ _ _ _ => rfl, fun _ _ => rfl, ?_⟩
  intro tasks order1 order2 hperm
  exact (hperm.map
    (fun i => safe_search_with_timeout (tasks.getD i (Except.ok [])))).flatten

/-- C8 witness: the two arrival orders of the counterexample are
permutations of each other, so the two concatenations are permutations. -/
theorem collection_order_amended_witness :
    List.Perm
      (execute_task_group
        [Except.ok [order_job_a], Except.ok [order_job_b]] [1, 0])
      (execute_task_group
        [Except.ok [order_job_a], Except.ok [order_job_b]] [0, 1]) :=
  collection_order_amended.2.2
    [Except.ok [order_job_a], Except.ok [order_job_b]] [1, 0] [0, 1]
    (by decide)

/-- A raw posting dictionary as `_clean_job_data` actually receives it: for
each of the eight required keys, `none` means the key is absent, `some none`
means the key is present with Python `None`, and `some (some s)` means it
holds the string `s`. -/
structure JobDict where
  title : Option (Option Str)
  company : Option (Option Str)
  location : Option (Option Str)
  salary : Option (Option Str)
  link : Option (Option Str)
  description : Option (Option Str)
  job_type : Option (Option Str)
  source : Option (Option Str)
deriving DecidableEq

/-- Python truthiness of `cleaned.get(key)`: present, not `None`, and a
non-empty string. -/
def truthyOpt : Option (Option Str) → Bool
  | some (some s) => !s.isEmpty
  | _ => false

/-- The string held by a truthy value (unused otherwise). -/
def strVal : Option (Option Str) → Str
  | some (some s) => s
  | _ => []

/-- One `if cleaned.get(key): cleaned[key] = f(cleaned[key])` step. -/
def clean_field (f : Str → Str) (v : Option (Option Str)) :
    Option (Option Str) :=
  if truthyOpt v then some (some (f (strVal v))) else v

/-- One step of the final loop of `_clean_job_data`:
`if field not in cleaned: cleaned[field] = ''`.  A key present with `None`
is NOT replaced — the check is `not in`, not falsiness. -/
def fill_field (v : Option (Option Str)) : Option (Option Str) :=
  if v = none then some (some []) else v

/-- The title cleanup of `_clean_job_data` (strip, drop the two label
prefixes anywhere in the text, strip again). -/
def title_cleanup (t : Str) : Str :=
  stripStr (replaceAll "Position:".toList []
    (replaceAll "Job Title:".toList [] (stripStr t)))

/-- The company cleanup of `_clean_job_data`. -/
def company_cleanup (c : Str) : Str :=
  stripStr (replaceAll "Company:".toList []
    (replaceAll " - Company".toList [] (stripStr c)))

/-- The location cleanup of `_clean_job_data`: strip, then collapse inner
whitespace (`' '.join(location.split())`). -/
def location_cleanup (l : Str) : Str :=
  List.intercalate [' '] (splitWS (stripStr l))

/-- `JobAggregator._clean_job_data` on raw dictionaries: the four
conditional per-field cleanups, then the defaulting pass over the eight
required keys. -/
def clean_job_data_dict (job : JobDict) : JobDict :=
  ⟨fill_field (clean_field title_cleanup job.title),
   fill_field (clean_field company_cleanup job.company),
   fill_field (clean_field location_cleanup job.location),
   fill_field (clean_field stripStr job.salary),
   fill_field job.link,
   fill_field job.description,
   fill_field job.job_type,
   fill_field job.source⟩

theorem fill_field_ne_none (v : Option (Option Str)) :
    fill_field v ≠ none := by
  rw [fill_field]
  rcases v with _ | w
  · simp
  · simp

theorem fill_clean_ne_none (f : Str → Str) (v : Option (Option Str)) :
    fill_field (clean_field f v) ≠ none :=
  fill_field_ne_none _

theorem fill_field_none : fill_field none = some (some []) := rfl

theorem fill_clean_none (f : Str → Str) :
    fill_field (clean_field f none) = some (some []) := rfl

theorem fill_field_not_null (v : Option (Option Str)) (h : v ≠ some none) :
    fill_field v ≠ some none := by
  rw [fill_field]
  rcases v with _ | (_ | s)
  · simp
  · exact absurd rfl h
  · simp

theorem fill_clean_not_null (f : Str → Str) (v : Option (Option Str))
    (h : v ≠ some none) : fill_field (clean_field f v) ≠ some none := by
  apply fill_field_not_null
  rw [clean_field]
  rcases v with _ | (_ | s)
  · simp [truthyOpt]
  · exact absurd rfl h
  · by_cases hs : s.isEmpty <;> simp [truthyOpt, hs]

/-- The raw dictionary whose title key is present but holds `None`. -/
def null_title_job : JobDict := ⟨some none, none, none, none, none, none,
  none, none⟩

/-- C7 counterexample: a title key explicitly set to `None` survives
`_clean_job_data` as `None` — the defaulting pass only tests `not in`, so
the cleaned posting maps the key `title` to a null value. -/
theorem clean_job_data_null_passthrough :
    (clean_job_data_dict null_title_job).title = some none := by decide

/-- C7 (amended): after `_clean_job_data` all eight keys exist; a key absent
from the input is set to the empty string; and a key is non-null in the
output provided it was not explicitly null in the input (an explicit `None`
passes through). -/
theorem clean_job_data_fields_amended :
    ∀ job : JobDict,
      ((clean_job_data_dict job).title ≠ none ∧
       (clean_job_data_dict job).company ≠ none ∧
       (clean_job_data_dict job).location ≠ none ∧
       (clean_job_data_dict job).salary ≠ none ∧
       (clean_job_data_dict job).link ≠ none ∧
       (clean_job_data_dict job).description ≠ none ∧
       (clean_job_data_dict job).job_type ≠ none ∧
       (clean_job_data_dict job).source ≠ none) ∧
      ((job.title = none → (clean_job_data_dict job).title = some (some [])) ∧
       (job.company = none →
         (clean_job_data_dict job).company = some (some [])) ∧
       (job.location = none →
         (clean_job_data_dict job).location = some (some [])) ∧
       (job.salary = none →
         (clean_job_data_dict job).salary = some (some [])) ∧
       (job.link = none → (clean_job_data_dict job).link = some (some [])) ∧
       (job.description = none →
         (clean_job_data_dict job).description = some (some [])) ∧
       (job.job_type = none →
         (clean_job_data_dict job).job_type = some (some [])) ∧
       (job.source = none →
         (clean_job_data_dict job).source = some (some []))) ∧
      ((job.title ≠ some none →
         (clean_job_data_dict job).title ≠ some none) ∧
       (job.company ≠ some none →
         (clean_job_data_dict job).company ≠ some none) ∧
       (job.location ≠ some none →
         (clean_job_data_dict job).location ≠ some none) ∧
       (job.salary ≠ some none →
         (clean_job_data_dict job).salary ≠ some none) ∧
       (job.link ≠ some none →
         (clean_job_data_dict job).link ≠ some none) ∧
       (job.description ≠ some none →
         (clean_job_data_dict job).description ≠ some none) ∧
       (job.job_type ≠ some none →
         (clean_job_data_dict job).job_type ≠ some none) ∧
       (job.source ≠ some none →
         (clean_job_data_dict job).source ≠ some none)) := by
  intro job
  refine ⟨⟨?_, ?_, ?_, ?_, ?_, ?_, ?_, ?_⟩,
    ⟨?_, ?_, ?_, ?_, ?_, ?_, ?_, ?_⟩, ⟨?_, ?_, ?_, ?_, ?_, ?_, ?_, ?_⟩⟩
  · exact fill_clean_ne_none _ _
  · exact fill_clean_ne_none _ _
  · exact fill_clean_ne_none _ _
  · exact fill_clean_ne_none _ _
  · exact fill_field_ne_none _
  · exact fill_field_ne_none _
  · exact fill_field_ne_none _
  · exact fill_field_ne_none _
  · intro h; show fill_field (clean_field _ job.title) = _
    rw [h]; rfl
  · intro h; show fill_field (clean_field _ job.company) = _
    rw [h]; rfl
  · intro h; show fill_field (clean_field _ job.location) = _
    rw [h]; rfl
  · intro h; show fill_field (clean_field _ job.salary) = _
    rw [h]; rfl
  · intro h; show fill_field job.link = _
    rw [h]; rfl
  · intro h; show fill_field job.description = _
    rw [h]; rfl
  · intro h; show fill_field job.job_type = _
    rw [h]; rfl
  · intro h; show fill_field job.source = _
    rw [h]; rfl
  · exact fill_clean_not_null _ _
  · exact fill_clean_not_null _ _
  · exact fill_clean_not_null _ _
  · exact fill_clean_not_null _ _
  · exact fill_field_not_null _
  · exact fill_field_not_null _
  · exact fill_field_not_null _
  · exact fill_field_not_null _

/-- C7 witness: on the all-keys-absent dictionary, every key of the output
is the empty string (shown for title and source), hence non-null. -/
theorem clean_job_data_fields_amended_witness :
    (clean_job_data_dict ⟨none, none, none, none, none, none, none,
        none⟩).title = some (some []) ∧
    (clean_job_data_dict ⟨none, none, none, none, none, none, none,
        none⟩).source ≠ some none :=
  ⟨(clean_job_data_fields_amended
      ⟨none, none, none, none, none, none, none, none⟩).2.1.1 rfl,
   (clean_job_data_fields_amended
      ⟨none, none, none, none, none, none, none,
        none⟩).2.2.2.2.2.2.2.2.2
     (by intro h; cases h)⟩

/-- The description handling of `APIManager._process_jsearch_job`: text over
200 characters becomes its first 200 characters plus an ellipsis. -/
def jsearch_clean_description (description : Str) : Str :=
  if 200 < description.length then description.take 200 ++ "...".toList
  else description

/-- The description handling of `APIManager._process_adzuna_job`: only text
over 300 characters is truncated (again to 200 characters plus an
ellipsis). -/
def adzuna_clean_description (description : Str) : Str :=
  if 300 < description.length then description.take 200 ++ "...".toList
  else description

/-- C9 counterexample: a 201-character JSearch description is emitted with
203 characters — the 200-character bound of the claim fails (truncation
appends "..." after the 200-character cut). -/
theorem description_exceeds_200 :
    ¬ (jsearch_clean_description (List.replicate 201 'a')).length ≤ 200 := by
  rw [jsearch_clean_description, if_pos (by decide), List.length_append,
    List.length_take, List.length_replicate]
  decide

/-- C9 (amended): a processed JSearch description never exceeds 203
characters (200 plus the ellipsis), a processed Adzuna description never
exceeds 300 (descriptions of 201..300 characters pass through untouched),
and the orchestrator's cleaning step never truncates a description — so no
200-character bound holds for the emitted postings. -/
theorem description_truncation_bounds :
    (∀ d : Str, (jsearch_clean_description d).length ≤ 203) ∧
    (∀ d : Str, (adzuna_clean_description d).length ≤ 300) ∧
    (∀ job : Job, (clean_job_data job).description = job.description) := by
  refine ⟨?_, ?_, fun job => rfl⟩
  · intro d
    rw [jsearch_clean_description]
    by_cases h : 200 < d.length
    · rw [if_pos h, List.length_append, List.length_take]
      have : "...".toList.length = 3 := by decide
      rw [this]
      omega
    · rw [if_neg h]
      omega
  · intro d
    rw [adzuna_clean_description]
    by_cases h : 300 < d.length
    · rw [if_pos h, List.length_append, List.length_take]
      have : "...".toList.length = 3 := by decide
      rw [this]
      omega
    · rw [if_neg h]
      omega
